import Mathlib

set_option maxRecDepth 2000000

/-!
Verification of the font-texture generator (`src/internal/text/generate.py`).

The script resolves a character set from a selector string, measures every
glyph's bounding box, derives a uniform grid cell size from the extremes,
draws each glyph into its cell and saves the image.  The shallow embedding
below models the pure data flow of `get_charset` and
`generate_font_texture`; the font collaborator (`Pillow`) is abstracted as
a measurement function `Char → Bbox`, and the observable side effects
(`draw.text` calls and `img.save`) are recorded as an explicit trace.
Machine floats appear only in `math.ceil(math.sqrt(n))` and
`math.ceil(n / cols)`; for the natural-number ranges the claims quantify
over, IEEE double sqrt and division are exact enough that these equal the
mathematical ceilings, which is how they are embedded.
-/

namespace Gowin

/-! ### Character-set resolution (`get_charset`, lines 18-31)

Python's `string.printable` is `digits + ascii_letters + punctuation +
whitespace`; the script takes its first 95 characters.  Each constant is
embedded as the list of its code points. -/

/-- Python `string.digits`: code points 48-57. -/
def string_digits : List Char := (List.range' 48 10).map Char.ofNat

/-- Python `string.ascii_lowercase`: code points 97-122. -/
def string_ascii_lowercase : List Char := (List.range' 97 26).map Char.ofNat

/-- Python `string.ascii_uppercase`: code points 65-90. -/
def string_ascii_uppercase : List Char := (List.range' 65 26).map Char.ofNat

/-- Python `string.ascii_letters`: lowercase then uppercase. -/
def string_ascii_letters : List Char := string_ascii_lowercase ++ string_ascii_uppercase

/-- Python `string.punctuation`: the 32 ASCII punctuation characters,
in code-point order they occupy the ranges 33-47, 58-64, 91-96, 123-126. -/
def string_punctuation : List Char :=
  ((List.range' 33 15) ++ (List.range' 58 7) ++ (List.range' 91 6) ++ (List.range' 123 4)).map
    Char.ofNat

/-- Python `string.whitespace`: space, tab, newline, carriage return,
vertical tab, form feed (in that order). -/
def string_whitespace : List Char :=
  [Char.ofNat 32, Char.ofNat 9, Char.ofNat 10, Char.ofNat 13, Char.ofNat 11, Char.ofNat 12]

/-- Python `string.printable` = digits + ascii_letters + punctuation + whitespace. -/
def string_printable : List Char :=
  string_digits ++ string_ascii_letters ++ string_punctuation ++ string_whitespace

/-- The Latin-1 supplement block used by the `extended` preset:
`[chr(c) for c in range(161, 256)]` (95 code points). -/
def latin1_supplement : List Char := (List.range' 161 95).map Char.ofNat

/-- `get_charset` (lines 18-31): preset dispatch by string equality,
anything else is treated as a literal character string. -/
def get_charset (mode : String) : List Char :=
  if mode = "ascii" then string_printable.take 95
  else if mode = "numeric" then string_digits
  else if mode = "alphanumeric" then string_digits ++ string_ascii_letters
  else if mode = "extended" then string_printable.take 95 ++ latin1_supplement
  else mode.data

/-! ### Measurement pass (lines 52-66) -/

/-- A glyph bounding box as returned by `dummy_draw.textbbox((0, 0), char)`:
`(left, top, right, bottom)`, signed pixels relative to the origin. -/
structure Bbox where
  left : Int
  top : Int
  right : Int
  bottom : Int
deriving DecidableEq

/-- The four running extremes tracked by the measurement loop. -/
structure Extremes where
  min_left : Int
  min_top : Int
  max_right : Int
  max_bottom : Int
deriving DecidableEq

/-- One iteration of the measurement loop (lines 63-66). -/
def updateExtremes (e : Extremes) (b : Bbox) : Extremes :=
  { min_left := min e.min_left b.left
    min_top := min e.min_top b.top
    max_right := max e.max_right b.right
    max_bottom := max e.max_bottom b.bottom }

/-- The whole measurement pass: fold the loop body over the bounding boxes,
starting from the all-zero initial extremes (lines 52-55). -/
def measurePass (boxes : List Bbox) : Extremes :=
  boxes.foldl updateExtremes { min_left := 0, min_top := 0, max_right := 0, max_bottom := 0 }

/-! ### Grid sizing (lines 69-78) -/

/-- `math.ceil(math.sqrt(n))` for a natural `n`: the least `k` with `n ≤ k * k`
(double-precision sqrt is exact on this range).  Implemented as a linear
search so it evaluates by kernel reduction; `k = n` always satisfies
`n ≤ k * k`, so the search never falls through to the default. -/
def ceil_sqrt (n : Nat) : Nat :=
  ((List.range (n + 1)).find? (fun k => n ≤ k * k)).getD n

/-- `cols = math.ceil(math.sqrt(num_chars))` (line 74). -/
def gridCols (n : Nat) : Nat := ceil_sqrt n

/-- `rows = math.ceil(num_chars / cols)` (line 75), as a natural ceiling
division.  The caller guards `cols ≠ 0`: in Python `num_chars / 0` raises
`ZeroDivisionError`. -/
def gridRows (n cols : Nat) : Nat := (n + cols - 1) / cols

/-! ### The pipeline (`generate_font_texture`, lines 34-100) -/

/-- The extremes computed for a charset under a measurement function. -/
def texExtremes (measure : Char → Bbox) (mode : String) : Extremes :=
  measurePass ((get_charset mode).map measure)

/-- `cell_width = (max_right - min_left) + (padding * 2)` (line 69). -/
def texCellWidth (measure : Char → Bbox) (mode : String) (padding : Int) : Int :=
  ((texExtremes measure mode).max_right - (texExtremes measure mode).min_left) + padding * 2

/-- `cell_height = (max_bottom - min_top) + (padding * 2)` (line 70). -/
def texCellHeight (measure : Char → Bbox) (mode : String) (padding : Int) : Int :=
  ((texExtremes measure mode).max_bottom - (texExtremes measure mode).min_top) + padding * 2

/-- `cols` for the resolved charset (lines 73-74). -/
def texCols (mode : String) : Nat := gridCols (get_charset mode).length

/-- `rows` for the resolved charset (line 75). -/
def texRows (mode : String) : Nat := gridRows (get_charset mode).length (texCols mode)

/-- `image_width = cols * cell_width` (line 77). -/
def texImageWidth (measure : Char → Bbox) (mode : String) (padding : Int) : Int :=
  (texCols mode : Int) * texCellWidth measure mode padding

/-- `image_height = rows * cell_height` (line 78). -/
def texImageHeight (measure : Char → Bbox) (mode : String) (padding : Int) : Int :=
  (texRows mode : Int) * texCellHeight measure mode padding

/-- The render loop (lines 86-94): for the character at linear index `i`,
`row = i // cols`, `col = i % cols`, and the draw position is
`x = col * cell_width + padding - min_left`,
`y = row * cell_height + padding - min_top`. -/
def texDraws (measure : Char → Bbox) (mode : String) (padding : Int) :
    List (Int × Int × Char) :=
  (get_charset mode).enum.map fun p =>
    (((p.1 % texCols mode : Nat) : Int) * texCellWidth measure mode padding + padding -
       (texExtremes measure mode).min_left,
     ((p.1 / texCols mode : Nat) : Int) * texCellHeight measure mode padding + padding -
       (texExtremes measure mode).min_top,
     p.2)

/-- The rendered grid data carried by a successful run. -/
structure TexResult where
  cols : Nat
  rows : Nat
  cell_width : Int
  cell_height : Int
  image_width : Int
  image_height : Int
  draws : List (Int × Int × Char)
deriving DecidableEq

/-- How a run of `generate_font_texture` terminates: `sys.exit(code)` from a
font-load failure, an unhandled `ZeroDivisionError` from `num_chars / cols`
with `cols = 0`, or normal completion. -/
inductive RunOutcome where
  | exit (code : Nat)
  | zeroDivisionError
  | ok (r : TexResult)
deriving DecidableEq

/-- The observable side effects of a run, in program order: each
`draw.text((x, y), char, ...)` call and the final `img.save(output_path)`. -/
inductive Effect where
  | draw (x y : Int) (c : Char)
  | save (path : String)
deriving DecidableEq

/-- `generate_font_texture` (lines 34-100).  `fontOk` abstracts whether
`ImageFont.truetype` succeeds; on failure both `except` arms call
`sys.exit(1)` before anything else happens.  The second component is the
trace of draw/save effects the run performs, in order. -/
def generate_font_texture (fontOk : Bool) (measure : Char → Bbox) (char_mode : String)
    (output_path : String) (padding : Int) : RunOutcome × List Effect :=
  if fontOk = false then (RunOutcome.exit 1, [])
  else if texCols char_mode = 0 then (RunOutcome.zeroDivisionError, [])
  else
    (RunOutcome.ok
      { cols := texCols char_mode
        rows := texRows char_mode
        cell_width := texCellWidth measure char_mode padding
        cell_height := texCellHeight measure char_mode padding
        image_width := texImageWidth measure char_mode padding
        image_height := texImageHeight measure char_mode padding
        draws := texDraws measure char_mode padding },
     (texDraws measure char_mode padding).map (fun d => Effect.draw d.1 d.2.1 d.2.2) ++
       [Effect.save output_path])

/-- The spec's end-to-end example measurement: every glyph reports the
bounding box `(0, 0, 10, 20)`. -/
def exampleMeasure : Char → Bbox := fun _ => ⟨0, 0, 10, 20⟩

/-! ### Helper lemmas -/

/-- The search in `ceil_sqrt` never returns `0` for a positive input. -/
lemma ceil_sqrt_ne_zero {n : Nat} (hn : n ≠ 0) : ceil_sqrt n ≠ 0 := by
  unfold ceil_sqrt
  cases hfind : (List.range (n + 1)).find? (fun k => n ≤ k * k) with
  | none => simpa using hn
  | some k =>
    have hk : n ≤ k * k := by simpa using List.find?_some hfind
    intro h
    simp only [Option.getD_some] at h
    subst h
    omega

/-- A non-empty charset yields a positive column count. -/
lemma texCols_ne_zero {mode : String} (h : get_charset mode ≠ []) : texCols mode ≠ 0 := by
  have : (get_charset mode).length ≠ 0 := by simpa using h
  exact ceil_sqrt_ne_zero this

/-- An empty charset yields `cols = 0` (`ceil(sqrt(0)) = 0`). -/
lemma texCols_zero_of_empty {mode : String} (h : get_charset mode = []) : texCols mode = 0 := by
  simp only [texCols, h, List.length_nil]
  rfl

/-- With a loaded font and an empty charset the run dies in the
`num_chars / cols` division, performing no effect. -/
lemma generate_empty_run (measure : Char → Bbox) (mode path : String) (pad : Int)
    (h : get_charset mode = []) :
    generate_font_texture true measure mode path pad = (RunOutcome.zeroDivisionError, []) := by
  unfold generate_font_texture
  rw [if_neg (by simp), if_pos (texCols_zero_of_empty h)]

/-- With a loaded font and a non-empty charset the run completes, returning
the computed grid and the trace of draws followed by the single save. -/
lemma generate_run_ok (measure : Char → Bbox) (mode path : String) (pad : Int)
    (h : get_charset mode ≠ []) :
    generate_font_texture true measure mode path pad =
      (RunOutcome.ok
        { cols := texCols mode
          rows := texRows mode
          cell_width := texCellWidth measure mode pad
          cell_height := texCellHeight measure mode pad
          image_width := texImageWidth measure mode pad
          image_height := texImageHeight measure mode pad
          draws := texDraws measure mode pad },
       (texDraws measure mode pad).map (fun d => Effect.draw d.1 d.2.1 d.2.2) ++
         [Effect.save path]) := by
  unfold generate_font_texture
  rw [if_neg (by simp), if_neg (texCols_ne_zero h)]

/-- A run that produced a grid had a non-empty charset. -/
lemma generate_ok_charset_ne {measure : Char → Bbox} {mode path : String} {pad : Int}
    {r : TexResult} {t : List Effect}
    (hok : generate_font_texture true measure mode path pad = (RunOutcome.ok r, t)) :
    get_charset mode ≠ [] := by
  intro h
  rw [generate_empty_run measure mode path pad h] at hok
  exact RunOutcome.noConfusion (congrArg Prod.fst hok)

/-- The measurement fold never increases `min_left` below its accumulator. -/
lemma foldl_min_left_le (l : List Bbox) (e : Extremes) :
    (List.foldl updateExtremes e l).min_left ≤ e.min_left := by
  induction l generalizing e with
  | nil => exact le_refl _
  | cons b l ih =>
    exact le_trans (ih (updateExtremes e b)) (min_le_left _ _)

/-- The measurement fold never increases `min_top` below its accumulator. -/
lemma foldl_min_top_le (l : List Bbox) (e : Extremes) :
    (List.foldl updateExtremes e l).min_top ≤ e.min_top := by
  induction l generalizing e with
  | nil => exact le_refl _
  | cons b l ih =>
    exact le_trans (ih (updateExtremes e b)) (min_le_left _ _)

/-- The measurement fold never decreases `max_right` below its accumulator. -/
lemma foldl_le_max_right (l : List Bbox) (e : Extremes) :
    e.max_right ≤ (List.foldl updateExtremes e l).max_right := by
  induction l generalizing e with
  | nil => exact le_refl _
  | cons b l ih =>
    exact le_trans (le_max_left _ _) (ih (updateExtremes e b))

/-- The measurement fold never decreases `max_bottom` below its accumulator. -/
lemma foldl_le_max_bottom (l : List Bbox) (e : Extremes) :
    e.max_bottom ≤ (List.foldl updateExtremes e l).max_bottom := by
  induction l generalizing e with
  | nil => exact le_refl _
  | cons b l ih =>
    exact le_trans (le_max_left _ _) (ih (updateExtremes e b))

/-- Every box that the fold processed is bounded by the final extremes. -/
lemma foldl_mem_bounds (l : List Bbox) (e : Extremes) (b : Bbox) (hb : b ∈ l) :
    (List.foldl updateExtremes e l).min_left ≤ b.left ∧
    (List.foldl updateExtremes e l).min_top ≤ b.top ∧
    b.right ≤ (List.foldl updateExtremes e l).max_right ∧
    b.bottom ≤ (List.foldl updateExtremes e l).max_bottom := by
  induction l generalizing e with
  | nil => cases hb
  | cons a l ih =>
    rcases List.mem_cons.mp hb with hba | hbl
    · subst hba
      refine ⟨?_, ?_, ?_, ?_⟩
      · exact le_trans (foldl_min_left_le l (updateExtremes e b)) (min_le_right _ _)
      · exact le_trans (foldl_min_top_le l (updateExtremes e b)) (min_le_right _ _)
      · exact le_trans (le_max_right _ _) (foldl_le_max_right l (updateExtremes e b))
      · exact le_trans (le_max_right _ _) (foldl_le_max_bottom l (updateExtremes e b))
    · exact ih (updateExtremes e a) hbl

/-- `measurePass` bounds every measured box. -/
lemma measurePass_mem_bounds {l : List Bbox} {b : Bbox} (hb : b ∈ l) :
    (measurePass l).min_left ≤ b.left ∧ (measurePass l).min_top ≤ b.top ∧
    b.right ≤ (measurePass l).max_right ∧ b.bottom ≤ (measurePass l).max_bottom :=
  foldl_mem_bounds l _ b hb

/-- The extremes are floored (minima) and ceiled (maxima) at zero, the
initial accumulator value. -/
lemma measurePass_zero_bounds (l : List Bbox) :
    (measurePass l).min_left ≤ 0 ∧ (measurePass l).min_top ≤ 0 ∧
    0 ≤ (measurePass l).max_right ∧ 0 ≤ (measurePass l).max_bottom :=
  ⟨foldl_min_left_le l _, foldl_min_top_le l _, foldl_le_max_right l _, foldl_le_max_bottom l _⟩

/-- The loop body of the measurement pass is right-commutative: processing
two boxes in either order yields the same extremes. -/
lemma updateExtremes_right_comm (e : Extremes) (a b : Bbox) :
    updateExtremes (updateExtremes e a) b = updateExtremes (updateExtremes e b) a := by
  cases e
  simp only [updateExtremes, Extremes.mk.injEq]
  exact ⟨min_right_comm _ _ _, min_right_comm _ _ _, Max.right_comm _ _ _, Max.right_comm _ _ _⟩

/-- Folding the measurement loop over permuted lists gives equal results. -/
lemma foldl_updateExtremes_perm {l₁ l₂ : List Bbox} (p : l₁.Perm l₂) :
    ∀ e : Extremes, List.foldl updateExtremes e l₁ = List.foldl updateExtremes e l₂ := by
  induction p with
  | nil => intro e; rfl
  | cons x _ ih => intro e; exact ih (updateExtremes e x)
  | swap x y l =>
    intro e
    simp only [List.foldl]
    rw [updateExtremes_right_comm]
  | trans _ _ ih₁ ih₂ => intro e; exact (ih₁ e).trans (ih₂ e)

/-- The draw list, element by element: position `i` holds the charset's
`i`-th character at the grid position the render loop computes for it. -/
lemma texDraws_getElem? (measure : Char → Bbox) (mode : String) (pad : Int) (i : Nat) :
    (texDraws measure mode pad)[i]? = ((get_charset mode)[i]?).map fun c =>
      (((i % texCols mode : Nat) : Int) * texCellWidth measure mode pad + pad -
         (texExtremes measure mode).min_left,
       ((i / texCols mode : Nat) : Int) * texCellHeight measure mode pad + pad -
         (texExtremes measure mode).min_top,
       c) := by
  simp only [texDraws, List.getElem?_map, List.enum, List.getElem?_enumFrom, Nat.zero_add,
    Option.map_map]
  cases (get_charset mode)[i]? with
  | none => rfl
  | some c => rfl

/-- Grid facts for every count up to 256: `gridCols n` is the least `k` with
`n ≤ k * k` (the ceiling of the square root) and `gridRows` is the matching
ceiling division, so the grid holds all `n` characters. -/
lemma grid_facts_upto_256 : ∀ n : Nat, n < 257 → 1 ≤ n →
    (n ≤ gridCols n * gridCols n ∧ (gridCols n - 1) * (gridCols n - 1) < n ∧
     n ≤ gridCols n * gridRows n (gridCols n) ∧
     gridCols n * (gridRows n (gridCols n) - 1) < n) := by decide

/-! ### Claim theorems -/

/-- C1 (counterexample): `get_charset "ascii"` is NOT the string
`chr(32), chr(33), ..., chr(126)` in increasing code-point order:
`string.printable[:95]` starts with the digit `0` (code point 48), not the
space character (code point 32). -/
theorem ascii_charset_not_codepoint_ordered :
    get_charset "ascii" ≠ (List.range' 32 95).map Char.ofNat := by decide

/-- C1 (amended): `get_charset "ascii"` consists of exactly the 95 printable
ASCII characters, code points 32 through 126 (a permutation of them), but
ordered as digits, lowercase letters, uppercase letters, punctuation, then
the space character — not in increasing code-point order. -/
theorem ascii_charset_perm_printable :
    (get_charset "ascii").Perm ((List.range' 32 95).map Char.ofNat) ∧
    (get_charset "ascii").length = 95 ∧
    get_charset "ascii" =
      string_digits ++ string_ascii_lowercase ++ string_ascii_uppercase ++
        string_punctuation ++ [Char.ofNat 32] := by
  refine ⟨by decide, by decide, by decide⟩

/-- C7: the four presets resolve to sequences of the documented lengths
(95, 10, 62, 190), and `extended` is the `ascii` sequence followed by the
95 code points 161-255. -/
theorem charset_lengths :
    (get_charset "ascii").length = 95 ∧
    (get_charset "numeric").length = 10 ∧
    (get_charset "alphanumeric").length = 62 ∧
    (get_charset "extended").length = 190 ∧
    get_charset "extended" = get_charset "ascii" ++ (List.range' 161 95).map Char.ofNat := by
  refine ⟨by decide, by decide, by decide, by decide, by decide⟩

/-- C8: any selector other than the four preset names resolves to exactly
its own characters, in order, duplicates preserved. -/
theorem custom_charset_literal (mode : String)
    (h1 : mode ≠ "ascii") (h2 : mode ≠ "numeric")
    (h3 : mode ≠ "alphanumeric") (h4 : mode ≠ "extended") :
    get_charset mode = mode.data := by
  unfold get_charset
  rw [if_neg h1, if_neg h2, if_neg h3, if_neg h4]

/-- C8 witness: the custom selector `"hello hello"` (duplicates included)
resolves to its own character list. -/
theorem custom_charset_literal_witness :
    get_charset "hello hello" = "hello hello".data :=
  custom_charset_literal "hello hello" (by decide) (by decide) (by decide) (by decide)

/-- C9: the measurement pass is order-independent — permuting the list of
per-character bounding boxes leaves the computed extremes unchanged. -/
theorem measurePass_perm_invariant (l₁ l₂ : List Bbox) (p : l₁.Perm l₂) :
    measurePass l₁ = measurePass l₂ :=
  foldl_updateExtremes_perm p _

/-- C9 witness: swapping two concrete bounding boxes leaves the extremes
unchanged. -/
theorem measurePass_perm_invariant_witness :
    measurePass [⟨-3, 1, 7, 20⟩, ⟨2, -5, 11, 4⟩] = measurePass [⟨2, -5, 11, 4⟩, ⟨-3, 1, 7, 20⟩] :=
  measurePass_perm_invariant _ _ (List.Perm.swap _ _ _)

/-- C10: with an empty resolved character set the run computes
`cols = ceil(sqrt(0)) = 0` and dies in the `num_chars / cols` division with
an unhandled `ZeroDivisionError`, before any image is created: the effect
trace is empty, so in particular nothing is saved. -/
theorem empty_charset_division_error (measure : Char → Bbox) (mode path : String) (pad : Int)
    (h : get_charset mode = []) :
    texCols mode = 0 ∧
    generate_font_texture true measure mode path pad = (RunOutcome.zeroDivisionError, []) ∧
    Effect.save path ∉ (generate_font_texture true measure mode path pad).2 := by
  refine ⟨texCols_zero_of_empty h, generate_empty_run measure mode path pad h, ?_⟩
  rw [generate_empty_run measure mode path pad h]
  simp

/-- C10 witness: the empty custom charset `""` triggers the division error. -/
theorem empty_charset_division_error_witness :
    texCols "" = 0 ∧
    generate_font_texture true (fun _ => ⟨0, 0, 0, 0⟩) "" "font_texture.png" 2 =
      (RunOutcome.zeroDivisionError, []) ∧
    Effect.save "font_texture.png" ∉
      (generate_font_texture true (fun _ => ⟨0, 0, 0, 0⟩) "" "font_texture.png" 2).2 :=
  empty_charset_division_error (fun _ => ⟨0, 0, 0, 0⟩) "" "font_texture.png" 2 (by decide)

/-- C6: if the font cannot be loaded the run exits with code 1 having
performed no effect (in particular no file is written); and on every run the
effect trace is either empty or a sequence of glyph draws followed by the
single final save — the image is only written after the full rasterization
pass has completed. -/
theorem font_failure_exit_and_save_last (measure : Char → Bbox) (mode path : String) (pad : Int) :
    generate_font_texture false measure mode path pad = (RunOutcome.exit 1, []) ∧
    Effect.save path ∉ (generate_font_texture false measure mode path pad).2 ∧
    ∀ fontOk : Bool,
      (generate_font_texture fontOk measure mode path pad).2 = [] ∨
      ∃ ds : List (Int × Int × Char),
        (generate_font_texture fontOk measure mode path pad).2 =
          ds.map (fun d => Effect.draw d.1 d.2.1 d.2.2) ++ [Effect.save path] := by
  refine ⟨rfl, by simp [generate_font_texture], ?_⟩
  intro fontOk
  cases fontOk with
  | false => exact Or.inl rfl
  | true =>
    by_cases h : get_charset mode = []
    · exact Or.inl (by rw [generate_empty_run measure mode path pad h])
    · exact Or.inr ⟨texDraws measure mode pad, by rw [generate_run_ok measure mode path pad h]⟩

/-- C2: for a character count between 1 and 256, the completed run's grid
has `cols = ceil(sqrt(n))` (the least `k` with `n ≤ k * k`),
`rows = ceil(n / cols)`, and `cols * rows ≥ n`. -/
theorem generate_grid_dimensions (measure : Char → Bbox) (mode path : String) (pad : Int)
    (r : TexResult) (t : List Effect)
    (h1 : 1 ≤ (get_charset mode).length) (h2 : (get_charset mode).length ≤ 256)
    (hok : generate_font_texture true measure mode path pad = (RunOutcome.ok r, t)) :
    r.cols = gridCols (get_charset mode).length ∧
    r.rows = gridRows (get_charset mode).length r.cols ∧
    (get_charset mode).length ≤ r.cols * r.cols ∧
    (r.cols - 1) * (r.cols - 1) < (get_charset mode).length ∧
    (get_charset mode).length ≤ r.cols * r.rows := by
  have hne : get_charset mode ≠ [] := generate_ok_charset_ne hok
  have key := (generate_run_ok measure mode path pad hne).symm.trans hok
  have hr := RunOutcome.ok.inj (congrArg Prod.fst key)
  subst hr
  have hf := grid_facts_upto_256 (get_charset mode).length (by omega) h1
  exact ⟨rfl, rfl, hf.1, hf.2.1, hf.2.2.1⟩

/-- C2 witness: the two-character example charset yields a 2-by-1 grid with
`2 = ceil(sqrt(2))` and `2 * 1 ≥ 2`. -/
theorem generate_grid_dimensions_witness :
    (2 : Nat) = gridCols 2 ∧ (1 : Nat) = gridRows 2 2 ∧
    (2 : Nat) ≤ 2 * 2 ∧ ((2 : Nat) - 1) * (2 - 1) < 2 ∧ (2 : Nat) ≤ 2 * 1 :=
  generate_grid_dimensions exampleMeasure "AB" "font_texture.png" 2
    ⟨2, 1, 14, 24, 28, 24, [(2, 2, 'A'), (16, 2, 'B')]⟩
    [Effect.draw 2 2 'A', Effect.draw 16 2 'B', Effect.save "font_texture.png"]
    (by decide) (by decide) (by decide)

/-- C3: the completed run's cell size is the bounding-box extremes span plus
`2 * padding` on each axis, the image is exactly `cols * cell_width` wide and
`rows * cell_height` high, and the extremes are floored (minima) and ceiled
(maxima) at zero. -/
theorem generate_cell_and_image_dims (measure : Char → Bbox) (mode path : String) (pad : Int)
    (r : TexResult) (t : List Effect)
    (hne : get_charset mode ≠ []) (hpad : 0 ≤ pad)
    (hok : generate_font_texture true measure mode path pad = (RunOutcome.ok r, t)) :
    r.cell_width =
      ((texExtremes measure mode).max_right - (texExtremes measure mode).min_left) + pad * 2 ∧
    r.cell_height =
      ((texExtremes measure mode).max_bottom - (texExtremes measure mode).min_top) + pad * 2 ∧
    r.image_width = (r.cols : Int) * r.cell_width ∧
    r.image_height = (r.rows : Int) * r.cell_height ∧
    (texExtremes measure mode).min_left ≤ 0 ∧ (texExtremes measure mode).min_top ≤ 0 ∧
    0 ≤ (texExtremes measure mode).max_right ∧ 0 ≤ (texExtremes measure mode).max_bottom := by
  have key := (generate_run_ok measure mode path pad hne).symm.trans hok
  have hr := RunOutcome.ok.inj (congrArg Prod.fst key)
  subst hr
  have hz := measurePass_zero_bounds ((get_charset mode).map measure)
  exact ⟨rfl, rfl, rfl, rfl, hz.1, hz.2.1, hz.2.2.1, hz.2.2.2⟩

/-- C3 witness: on the example run (bounding boxes `(0, 0, 10, 20)`,
padding 2) the cell is 14 by 24 and the image is 28 by 24. -/
theorem generate_cell_and_image_dims_witness :
    (14 : Int) = (10 - 0) + 2 * 2 ∧ (24 : Int) = (20 - 0) + 2 * 2 ∧
    (28 : Int) = ((2 : Nat) : Int) * 14 ∧ (24 : Int) = ((1 : Nat) : Int) * 24 ∧
    (0 : Int) ≤ 0 ∧ (0 : Int) ≤ 0 ∧ (0 : Int) ≤ 10 ∧ (0 : Int) ≤ 20 :=
  generate_cell_and_image_dims exampleMeasure "AB" "font_texture.png" 2
    ⟨2, 1, 14, 24, 28, 24, [(2, 2, 'A'), (16, 2, 'B')]⟩
    [Effect.draw 2 2 'A', Effect.draw 16 2 'B', Effect.save "font_texture.png"]
    (by decide) (by decide) (by decide)

/-- C4: the character at linear index `i` is drawn at
`x = (i mod cols) * cell_width + padding - min_left` and
`y = (i div cols) * cell_height + padding - min_top`; and on the concrete
example (charset `"AB"`, both boxes `(0, 0, 10, 20)`, padding 2) the run
computes cell 14 by 24, a 2-by-1 grid, a 28-by-24 image, and draws `A` at
`(2, 2)` and `B` at `(16, 2)`. -/
theorem generate_draw_positions (measure : Char → Bbox) (mode path : String) (pad : Int)
    (r : TexResult) (t : List Effect)
    (hok : generate_font_texture true measure mode path pad = (RunOutcome.ok r, t)) :
    (∀ i : Nat, r.draws[i]? = ((get_charset mode)[i]?).map fun c =>
        (((i % r.cols : Nat) : Int) * r.cell_width + pad - (texExtremes measure mode).min_left,
         ((i / r.cols : Nat) : Int) * r.cell_height + pad - (texExtremes measure mode).min_top,
         c)) ∧
    generate_font_texture true exampleMeasure "AB" "font_texture.png" 2 =
      (RunOutcome.ok ⟨2, 1, 14, 24, 28, 24, [(2, 2, 'A'), (16, 2, 'B')]⟩,
       [Effect.draw 2 2 'A', Effect.draw 16 2 'B', Effect.save "font_texture.png"]) := by
  have hne : get_charset mode ≠ [] := generate_ok_charset_ne hok
  have key := (generate_run_ok measure mode path pad hne).symm.trans hok
  have hr := RunOutcome.ok.inj (congrArg Prod.fst key)
  subst hr
  exact ⟨fun i => texDraws_getElem? measure mode pad i, by decide⟩

/-- C4 witness: in the example run, the character at index 1 (`B`) is drawn
at `x = (1 mod 2) * 14 + 2 - 0 = 16`, `y = (1 div 2) * 24 + 2 - 0 = 2`. -/
theorem generate_draw_positions_witness :
    [((2 : Int), (2 : Int), 'A'), (16, 2, 'B')][1]? = ((get_charset "AB")[1]?).map fun c =>
      (((1 % 2 : Nat) : Int) * 14 + 2 - 0, ((1 / 2 : Nat) : Int) * 24 + 2 - 0, c) :=
  (generate_draw_positions exampleMeasure "AB" "font_texture.png" 2
    ⟨2, 1, 14, 24, 28, 24, [(2, 2, 'A'), (16, 2, 'B')]⟩
    [Effect.draw 2 2 'A', Effect.draw 16 2 'B', Effect.save "font_texture.png"]
    (by decide)).1 1

/-- C5: every drawn glyph's ink rectangle — its bounding box translated to
its draw position — lies inside its assigned cell
`[col * cell_width, (col + 1) * cell_width] ×
[row * cell_height, (row + 1) * cell_height]`, for any non-negative padding,
because the cell size is derived from the global extremes that bound every
glyph's box. -/
theorem glyph_ink_inside_cell (measure : Char → Bbox) (mode path : String) (pad : Int)
    (r : TexResult) (t : List Effect)
    (hne : get_charset mode ≠ []) (hpad : 0 ≤ pad)
    (hok : generate_font_texture true measure mode path pad = (RunOutcome.ok r, t)) :
    ∀ (i : Nat) (x y : Int) (c : Char), r.draws[i]? = some (x, y, c) →
      ((i % r.cols : Nat) : Int) * r.cell_width ≤ x + (measure c).left ∧
      x + (measure c).right ≤ ((i % r.cols + 1 : Nat) : Int) * r.cell_width ∧
      ((i / r.cols : Nat) : Int) * r.cell_height ≤ y + (measure c).top ∧
      y + (measure c).bottom ≤ ((i / r.cols + 1 : Nat) : Int) * r.cell_height := by
  have key := (generate_run_ok measure mode path pad hne).symm.trans hok
  have hr := RunOutcome.ok.inj (congrArg Prod.fst key)
  subst hr
  intro i x y c hsome
  have hs2 : (texDraws measure mode pad)[i]? = some (x, y, c) := hsome
  rw [texDraws_getElem? measure mode pad i] at hs2
  cases hc : (get_charset mode)[i]? with
  | none => rw [hc] at hs2; exact absurd hs2 (by simp)
  | some c0 =>
    rw [hc] at hs2
    simp only [Option.map_some', Option.some.injEq, Prod.mk.injEq] at hs2
    obtain ⟨hx, hy, hcc⟩ := hs2
    subst hcc
    subst hx
    subst hy
    have hmem : c0 ∈ get_charset mode := List.getElem?_mem hc
    have hb := measurePass_mem_bounds (List.mem_map_of_mem measure hmem)
    have hbl : (texExtremes measure mode).min_left ≤ (measure c0).left := hb.1
    have hbt : (texExtremes measure mode).min_top ≤ (measure c0).top := hb.2.1
    have hbr : (measure c0).right ≤ (texExtremes measure mode).max_right := hb.2.2.1
    have hbb : (measure c0).bottom ≤ (texExtremes measure mode).max_bottom := hb.2.2.2
    have hcw : texCellWidth measure mode pad =
        ((texExtremes measure mode).max_right - (texExtremes measure mode).min_left) + pad * 2 :=
      rfl
    have hch : texCellHeight measure mode pad =
        ((texExtremes measure mode).max_bottom - (texExtremes measure mode).min_top) + pad * 2 :=
      rfl
    have hcastc : ((i % texCols mode + 1 : Nat) : Int) = ((i % texCols mode : Nat) : Int) + 1 := by
      push_cast
      ring
    have hcastr : ((i / texCols mode + 1 : Nat) : Int) = ((i / texCols mode : Nat) : Int) + 1 := by
      push_cast
      ring
    refine ⟨by linarith, ?_, by linarith, ?_⟩
    · rw [hcastc, add_mul, one_mul]
      linarith
    · rw [hcastr, add_mul, one_mul]
      linarith

/-- C5 witness: in the example run, glyph `B` (bounding box `(0, 0, 10, 20)`
drawn at `(16, 2)`) lies inside its cell `[14, 28] × [0, 24]`. -/
theorem glyph_ink_inside_cell_witness :
    ((1 % 2 : Nat) : Int) * 14 ≤ 16 + 0 ∧
    (16 : Int) + 10 ≤ ((1 % 2 + 1 : Nat) : Int) * 14 ∧
    ((1 / 2 : Nat) : Int) * 24 ≤ 2 + 0 ∧
    (2 : Int) + 20 ≤ ((1 / 2 + 1 : Nat) : Int) * 24 :=
  glyph_ink_inside_cell exampleMeasure "AB" "font_texture.png" 2
    ⟨2, 1, 14, 24, 28, 24, [(2, 2, 'A'), (16, 2, 'B')]⟩
    [Effect.draw 2 2 'A', Effect.draw 16 2 'B', Effect.save "font_texture.png"]
    (by decide) (by decide) (by decide) 1 16 2 'B' (by decide)

end Gowin
